import Mathlib

/-!
Shallow embedding of the `rust-raytracer` repository (src/src/*.rs) in Lean 4.

Rust `f32` values are idealized as real numbers; `f32::sqrt` becomes
`Real.sqrt`, `f32::powf` becomes `Real.rpow`, and `f32::EPSILON` becomes the
exact constant `2⁻²³`.  All definitions mirror the Rust source structure.
-/

namespace RT

noncomputable section

/-- `Tuple<T>` from src/tuple.rs: four components; the Rust struct fields
`.0 .1 .2 .3` are named `x y z w` here. -/
structure Tuple where
  x : ℝ
  y : ℝ
  z : ℝ
  w : ℝ

/-- `Tuple::new_point` -/
def Tuple.new_point (x y z : ℝ) : Tuple := ⟨x, y, z, 1⟩

/-- `Tuple::new_vector` -/
def Tuple.new_vector (x y z : ℝ) : Tuple := ⟨x, y, z, 0⟩

/-- componentwise addition (`impl Add for Tuple`) -/
instance : Add Tuple :=
  ⟨fun a b => ⟨a.x + b.x, a.y + b.y, a.z + b.z, a.w + b.w⟩⟩

/-- componentwise subtraction (`impl Sub for Tuple`) -/
instance : Sub Tuple :=
  ⟨fun a b => ⟨a.x - b.x, a.y - b.y, a.z - b.z, a.w - b.w⟩⟩

/-- negation (`impl Neg for Tuple`, written `0 - c` in the source) -/
instance : Neg Tuple :=
  ⟨fun a => ⟨0 - a.x, 0 - a.y, 0 - a.z, 0 - a.w⟩⟩

/-- scalar multiplication (`impl Mul<T> for Tuple`) -/
instance : HMul Tuple ℝ Tuple :=
  ⟨fun a c => ⟨a.x * c, a.y * c, a.z * c, a.w * c⟩⟩

/-- scalar division (`impl Div<T> for Tuple`) -/
instance : HDiv Tuple ℝ Tuple :=
  ⟨fun a c => ⟨a.x / c, a.y / c, a.z / c, a.w / c⟩⟩

/-- `dot` from src/tuple.rs (the `assert!(w == 0)` calls are modelled
separately by `dotOk` below). -/
def dot (a b : Tuple) : ℝ := a.x * b.x + a.y * b.y + a.z * b.z + a.w * b.w

/-- the `assert!` precondition of `dot`: both arguments must be vectors. -/
def dotOk (a b : Tuple) : Prop := a.w = 0 ∧ b.w = 0

/-- `Tuple::magnitude` -/
def Tuple.magnitude (t : Tuple) : ℝ := Real.sqrt (t.x * t.x + t.y * t.y + t.z * t.z)

/-- `Tuple::normalize` -/
def Tuple.normalize (t : Tuple) : Tuple := t / t.magnitude

/-- `Tuple::reflect`: `*self - *n * (1+1) * dot(*self, *n)` -/
def Tuple.reflect (t n : Tuple) : Tuple := t - n * (2 : ℝ) * dot t n

/-- `Color<T>` from src/color.rs: `.0 .1 .2` named `r g b`. -/
structure Color where
  r : ℝ
  g : ℝ
  b : ℝ

/-- componentwise addition (`impl Add for Color`) -/
instance : Add Color := ⟨fun a b => ⟨a.r + b.r, a.g + b.g, a.b + b.b⟩⟩

/-- Hadamard product (`impl Mul<Color> for Color`) -/
instance : Mul Color := ⟨fun a b => ⟨a.r * b.r, a.g * b.g, a.b * b.b⟩⟩

/-- scalar multiplication (`impl Mul<T> for Color`) -/
instance : HMul Color ℝ Color := ⟨fun a c => ⟨a.r * c, a.g * c, a.b * c⟩⟩

/-- `Matrix<f32>` from src/matrix.rs, specialized to the square shapes the
program uses; entry `(i, j)` is row `i`, column `j` (as in `Index<(usize,usize)>`). -/
abbrev SqMatrix (n : ℕ) := Fin n → Fin n → ℝ

/-- `Matrix::eye` -/
def eye (n : ℕ) : SqMatrix n := fun i j => if i = j then 1 else 0

/-- `Matrix::transpose` -/
def transpose {n : ℕ} (m : SqMatrix n) : SqMatrix n := fun i j => m j i

/-- `Matrix::submatrix(row, col)`: remove one row and one column; entries
before the removed index keep their position, later ones shift down by one,
exactly as in the Rust copy loops. -/
def submatrix {n : ℕ} (m : SqMatrix (n + 1)) (row col : Fin (n + 1)) : SqMatrix n :=
  fun i j => m (row.succAbove i) (col.succAbove j)

/-- `Matrix::det`: explicit 1×1 and 2×2 bases, otherwise Laplace expansion
along row 0 (`Σ col, cofactor(0, col) * m[(0, col)]` with the cofactor
inlined). The empty sum makes the degenerate 0×0 case 0. -/
def det : (n : ℕ) → SqMatrix n → ℝ
  | 0, _ => 0
  | 1, m => m 0 0
  | 2, m => m 0 0 * m 1 1 - m 0 1 * m 1 0
  | n + 3, m =>
    ∑ col : Fin (n + 3),
      det (n + 2) (submatrix m 0 col) *
        (if ((0 : Fin (n + 3)).val + col.val) % 2 = 0 then 1 else 0 - 1) * m 0 col

/-- `Matrix::cofactor`: signed minor. -/
def cofactor : (n : ℕ) → SqMatrix n → Fin n → Fin n → ℝ
  | 0, _, i, _ => i.elim0
  | n + 1, m, row, col =>
    det n (submatrix m row col) * (if (row.val + col.val) % 2 = 0 then 1 else 0 - 1)

/-- `Matrix::mirror`: unsigned minor. -/
def mirror : (n : ℕ) → SqMatrix n → Fin n → Fin n → ℝ
  | 0, _, i, _ => i.elim0
  | n + 1, m, row, col => det n (submatrix m row col)

/-- `f32::EPSILON` (the machine epsilon `2⁻²³` returned by `T::epsilon()`). -/
def f32Epsilon : ℝ := 1 / 2 ^ 23

/-- `Matrix::new_fn_option`: builds the matrix when every entry is `Some`,
otherwise fails. -/
def new_fn_option {n : ℕ} (f : Fin n → Fin n → Option ℝ) : Option (SqMatrix n) :=
  if H : ∀ i j, (f i j).isSome then some (fun i j => (f i j).get (H i j)) else none

/-- `Matrix::inverse`: entry `(i, j)` is `cofactor(j, i) / det`, each entry
failing when `|det| < epsilon`. -/
def inverse {n : ℕ} (m : SqMatrix n) : Option (SqMatrix n) :=
  new_fn_option fun i j =>
    if |det n m| < f32Epsilon then none else some (cofactor n m j i / det n m)

/-- `impl Mul for &Matrix` (all uses in the program are square). -/
def mulMat {n : ℕ} (a b : SqMatrix n) : SqMatrix n :=
  fun i j => ∑ k, a i k * b k j

/-- helper: the components of a `Tuple` indexed by `Fin 4` (`Index<usize>`). -/
def tget (t : Tuple) : Fin 4 → ℝ := ![t.x, t.y, t.z, t.w]

/-- `impl Mul<Tuple> for &Matrix`: row `i` of the result is `Σ_j m[(i,j)] * t[j]`. -/
def mulT (m : SqMatrix 4) (t : Tuple) : Tuple :=
  ⟨∑ j, m 0 j * tget t j, ∑ j, m 1 j * tget t j,
   ∑ j, m 2 j * tget t j, ∑ j, m 3 j * tget t j⟩

/-- `Matrix::translate`: identity with column 3 entries `x, y, z`. -/
def translate (x y z : ℝ) : SqMatrix 4 := fun i j =>
  if i = j then 1
  else if j = 3 then (if i = 0 then x else if i = 1 then y else if i = 2 then z else 0)
  else 0

/-- `Matrix::scale`: identity with diagonal `x, y, z, 1`. -/
def scale (x y z : ℝ) : SqMatrix 4 := fun i j =>
  if i = j then (if i = 0 then x else if i = 1 then y else if i = 2 then z else 1)
  else 0

/-- `Matrix::rotation_x`: identity with the `(1,1) (1,2) (2,1) (2,2)` block
replaced by the x-axis rotation. -/
def rotation_x (r : ℝ) : SqMatrix 4 := fun i j =>
  if i = 1 ∧ j = 1 then Real.cos r
  else if i = 1 ∧ j = 2 then -Real.sin r
  else if i = 2 ∧ j = 1 then Real.sin r
  else if i = 2 ∧ j = 2 then Real.cos r
  else if i = j then 1 else 0

/-- `TransformBuilder`: wraps the accumulated matrix. -/
structure TransformBuilder where
  m : SqMatrix 4

/-- `TransformBuilder::identity` -/
def TransformBuilder.identity : TransformBuilder := ⟨eye 4⟩

/-- `TransformBuilder::translate`: left-multiplies the new matrix. -/
def TransformBuilder.translate (b : TransformBuilder) (x y z : ℝ) : TransformBuilder :=
  ⟨mulMat (RT.translate x y z) b.m⟩

/-- `TransformBuilder::scale`: left-multiplies the new matrix. -/
def TransformBuilder.scale (b : TransformBuilder) (x y z : ℝ) : TransformBuilder :=
  ⟨mulMat (RT.scale x y z) b.m⟩

/-- `TransformBuilder::rotation_x`: left-multiplies the new matrix. -/
def TransformBuilder.rotation_x (b : TransformBuilder) (r : ℝ) : TransformBuilder :=
  ⟨mulMat (RT.rotation_x r) b.m⟩

/-- `TransformBuilder::build` -/
def TransformBuilder.build (b : TransformBuilder) : SqMatrix 4 := b.m

/-- `Ray` from src/ray.rs. -/
structure Ray where
  origin : Tuple
  dir : Tuple

/-- `Ray::new`: normalizes the direction. -/
def Ray.new (origin dir : Tuple) : Ray := ⟨origin, dir.normalize⟩

/-- `Ray::pos` -/
def Ray.pos (r : Ray) (t : ℝ) : Tuple := r.origin + r.dir * t

/-- `Ray::transform`: applies the matrix to origin and direction, with no
renormalization (the source deliberately avoids `Ray::new` here). -/
def Ray.transform (r : Ray) (m : SqMatrix 4) : Ray :=
  ⟨mulT m r.origin, mulT m r.dir⟩

/-- `PointLight<f32>` from src/light.rs. -/
structure PointLight where
  intensity : Color
  pos : Tuple

/-- `Material` from src/material.rs. -/
structure Material where
  color : Color
  ambient : ℝ
  diffuse : ℝ
  specular : ℝ
  shininess : ℝ

/-- `Material::new`: the default material. -/
def Material.new : Material := ⟨⟨1, 1, 1⟩, 0.1, 0.9, 0.9, 200⟩

/-- `lightning` from src/material.rs (Phong shading; `powf` is `Real.rpow`). -/
def lightning (material : Material) (light : PointLight) (pos eyev normalv : Tuple)
    (in_shadow : Bool) : Color :=
  let black : Color := ⟨0, 0, 0⟩
  let effective_color := material.color * light.intensity
  let lightv := (light.pos - pos).normalize
  let ambient := effective_color * material.ambient
  if in_shadow then ambient
  else
    let light_dot_normal := dot lightv normalv
    let ds : Color × Color :=
      if light_dot_normal < 0 then (black, black)
      else
        let diffuse := effective_color * material.diffuse * light_dot_normal
        let reflectv := (-lightv).reflect normalv
        let reflect_dot_eye := dot reflectv eyev
        let specular :=
          if reflect_dot_eye < 0 then black
          else
            let f := reflect_dot_eye ^ material.shininess
            light.intensity * material.specular * f
        (diffuse, specular)
    ambient + ds.1 + ds.2

/-- `Shape` from src/object.rs: the only variant is the unit sphere. -/
inductive Shape where
  | sphere : Shape

/-- `Sphere::hit` (`impl Hittable for Sphere`): quadratic intersection with
the canonical unit sphere. -/
def Sphere.hit (r : Ray) : List ℝ :=
  let sphere_to_ray := r.origin - Tuple.new_point 0 0 0
  let a := dot r.dir r.dir
  let b := 2 * dot r.dir sphere_to_ray
  let c := dot sphere_to_ray sphere_to_ray - 1
  let disc := b * b - 4 * a * c
  if disc < 0 then []
  else [(-b - Real.sqrt disc) / (2 * a), (-b + Real.sqrt disc) / (2 * a)]

/-- the `assert!(w == 0)` preconditions of the three `dot` calls made by
`Sphere::hit` on a ray. -/
def Sphere.hitOk (r : Ray) : Prop :=
  dotOk r.dir r.dir ∧ dotOk r.dir (r.origin - Tuple.new_point 0 0 0) ∧
    dotOk (r.origin - Tuple.new_point 0 0 0) (r.origin - Tuple.new_point 0 0 0)

/-- `Sphere::normal_at` -/
def Sphere.normal_at (pt : Tuple) : Tuple := (pt - Tuple.new_point 0 0 0).normalize

/-- `impl Hittable for Shape` dispatch. -/
def Shape.hit : Shape → Ray → List ℝ
  | .sphere, r => Sphere.hit r

/-- `impl Hittable for Shape` dispatch. -/
def Shape.normal_at : Shape → Tuple → Tuple
  | .sphere, pt => Sphere.normal_at pt

/-- `Object` from src/object.rs: stores the inverse transform. -/
structure Object where
  shape : Shape
  inv_transform : SqMatrix 4
  material : Material

/-- `Hitrecord` (the Rust borrow `&Object` is embedded by value). -/
structure Hitrecord where
  hit : ℝ
  obj : Object

/-- `Object::new`: identity inverse transform, default material. -/
def Object.new (shape : Shape) : Object := ⟨shape, eye 4, Material.new⟩

/-- `Object::apply_transform`: stores the inverse of the given matrix; the
Rust `unwrap()` panic on a singular matrix is modelled by `none`. -/
def Object.apply_transform (o : Object) (t : SqMatrix 4) : Option Object :=
  (inverse t).map fun it => { o with inv_transform := it }

/-- `Object::hit`: transform the ray by the stored inverse, intersect the
shape, wrap each parameter in a `Hitrecord` (`Hitrecord::new_vec`). -/
def Object.hit (o : Object) (r : Ray) : List Hitrecord :=
  (o.shape.hit (r.transform o.inv_transform)).map fun h => ⟨h, o⟩

/-- `Object::normal_at`: to object space, shape normal, back by the
transposed inverse, force `w = 0`, normalize. -/
def Object.normal_at (o : Object) (pt : Tuple) : Tuple :=
  let obj_pt := mulT o.inv_transform pt
  let normal := mulT (transpose o.inv_transform) (o.shape.normal_at obj_pt)
  ({ normal with w := 0 }).normalize

/-- the `filter(|h| h.hit >= 0.0)` step of `find_hit`. -/
def filterNonneg : List Hitrecord → List Hitrecord
  | [] => []
  | h :: t => if 0 ≤ h.hit then h :: filterNonneg t else filterNonneg t

/-- the `min_by` step of `find_hit` (first minimal element, as in Rust). -/
def minByHit : List Hitrecord → Option Hitrecord
  | [] => none
  | h :: t =>
    match minByHit t with
    | none => some h
    | some m => if h.hit ≤ m.hit then some h else some m

/-- `find_hit` from src/object.rs: closest hit with non-negative parameter. -/
def find_hit (hits : List Hitrecord) : Option Hitrecord :=
  minByHit (filterNonneg hits)

/-- one insertion step of the stable sort used by `intersect_world`. -/
def insertHit (x : Hitrecord) : List Hitrecord → List Hitrecord
  | [] => [x]
  | y :: ys => if x.hit ≤ y.hit then x :: y :: ys else y :: insertHit x ys

/-- the `sort_by(partial_cmp on hit)` step of `intersect_world`, embedded as
insertion sort on the `hit` field. -/
def sortByHit (l : List Hitrecord) : List Hitrecord := l.foldr insertHit []

/-- `World` from src/world.rs. -/
structure World where
  lights : List PointLight
  objects : List Object

/-- `Hitinfo` from src/world.rs. -/
structure Hitinfo where
  hit : ℝ
  obj : Object
  point : Tuple
  over_point : Tuple
  eyev : Tuple
  normalv : Tuple
  inside : Bool

/-- `World::intersect_world`: concatenate every object's hit records and sort
them by parameter. -/
def World.intersect_world (w : World) (ray : Ray) : List Hitrecord :=
  sortByHit (w.objects.map fun o => o.hit ray).flatten

/-- `World::is_shadowed(point, light)` -/
def World.is_shadowed (w : World) (point : Tuple) (light : PointLight) : Bool :=
  let v := light.pos - point
  let dist := v.magnitude
  let dir := v.normalize
  let r := Ray.new point dir
  let i := w.intersect_world r
  match find_hit i with
  | some h => decide (h.hit < dist)
  | none => false

/-- `World::prepare_computations`: note that `over_point` is computed from
the normal BEFORE the inside-flip, while the stored `normalv` is flipped. -/
def World.prepare_computations (hr : Hitrecord) (ray : Ray) : Hitinfo :=
  let pt := ray.pos hr.hit
  let normalv := hr.obj.normal_at pt
  let eyev := -ray.dir
  let inside : Bool := decide (dot normalv eyev < 0)
  { hit := hr.hit
    obj := hr.obj
    point := pt
    over_point := pt + normalv * (0.01 : ℝ)
    eyev := eyev
    normalv := if inside then -normalv else normalv
    inside := inside }

/-- `World::shade_hit`: per-light shading accumulated from black. -/
def World.shade_hit (w : World) (comps : Hitinfo) : Color :=
  (w.lights.map fun l =>
      let in_shadow := w.is_shadowed comps.over_point l
      lightning comps.obj.material l comps.over_point comps.eyev comps.normalv in_shadow).foldl
    (fun a b => a + b) ⟨0, 0, 0⟩

/-- `World::color_at`: black when there are no hit records at all, otherwise
shade the FIRST record of the sorted list (`hrs[0]`), with no filtering of
negative parameters. -/
def World.color_at (w : World) (ray : Ray) : Color :=
  match w.intersect_world ray with
  | [] => ⟨0, 0, 0⟩
  | h :: _ => w.shade_hit (World.prepare_computations h ray)

/-- the default light of `World::new_default`. -/
def defaultLight : PointLight := ⟨⟨1, 1, 1⟩, Tuple.new_point (-10) 10 (-10)⟩

/-- first sphere of `World::new_default`. -/
def defaultSphere1 : Object :=
  { Object.new Shape.sphere with
      material := { Material.new with color := ⟨0.8, 1, 0.6⟩, diffuse := 0.7, specular := 0.2 } }

/-- second sphere of `World::new_default`: `apply_transform(scale(0.5,0.5,0.5))`
stores the inverse of the scale matrix (the `unwrap` is modelled by `getD`;
the lemma `inverse_scale_half` below shows the inverse is `some (scale 2 2 2)`). -/
def defaultSphere2 : Object :=
  { Object.new Shape.sphere with
      inv_transform := (inverse (scale 0.5 0.5 0.5)).getD (eye 4) }

/-- `World::new_default`: one white light and two spheres. -/
def World.new_default : World := ⟨[defaultLight], [defaultSphere1, defaultSphere2]⟩

/-- `Camera` from src/camera.rs. -/
structure Camera where
  hsize : ℝ
  vsize : ℝ
  fov : ℝ
  inv_transform : SqMatrix 4
  half_width : ℝ
  half_height : ℝ
  pixel_size : ℝ

/-- `Camera::new` -/
def Camera.new (hsize vsize fov : ℝ) : Camera :=
  let half_view := Real.tan (fov / 2)
  let aspect := hsize / vsize
  let p : ℝ × ℝ :=
    if 1 ≤ aspect then (half_view, half_view / aspect) else (half_view * aspect, half_view)
  let pixel_size := p.1 * 2 / hsize
  { hsize := hsize, vsize := vsize, fov := fov, inv_transform := eye 4,
    half_width := p.1, half_height := p.2, pixel_size := pixel_size }

/-- an untransformed unit sphere object (`Object::new(Sphere::new())`). -/
def exSphere : Object := Object.new Shape.sphere

/-- example ray: origin (0,0,−5), direction (0,0,1). -/
def exRayA : Ray := Ray.new (Tuple.new_point 0 0 (-5)) (Tuple.new_vector 0 0 1)

/-- example ray: origin (0,0,0), direction (0,0,1). -/
def exRayB : Ray := Ray.new (Tuple.new_point 0 0 0) (Tuple.new_vector 0 0 1)

/-- example ray: origin (0,0,5), direction (0,0,1). -/
def exRayC : Ray := Ray.new (Tuple.new_point 0 0 5) (Tuple.new_vector 0 0 1)

/-- a world with one default sphere and a white light at (0,0,−11). -/
def exWorld : World := ⟨[⟨⟨1, 1, 1⟩, Tuple.new_point 0 0 (-11)⟩], [exSphere]⟩

/-- the hit record at parameter 1 on the unit sphere, an inside-hit example
for `prepare_computations`. -/
def exRecordB : Hitrecord := ⟨1, exSphere⟩

/-!  Helper lemmas: componentwise evaluation of the vector algebra. -/

@[simp] lemma Tuple.add_def (a b : Tuple) :
    a + b = ⟨a.x + b.x, a.y + b.y, a.z + b.z, a.w + b.w⟩ := rfl

@[simp] lemma Tuple.sub_def (a b : Tuple) :
    a - b = ⟨a.x - b.x, a.y - b.y, a.z - b.z, a.w - b.w⟩ := rfl

@[simp] lemma Tuple.neg_def (a : Tuple) :
    -a = ⟨0 - a.x, 0 - a.y, 0 - a.z, 0 - a.w⟩ := rfl

@[simp] lemma Tuple.smul_def (a : Tuple) (c : ℝ) :
    a * c = ⟨a.x * c, a.y * c, a.z * c, a.w * c⟩ := rfl

@[simp] lemma Tuple.sdiv_def (a : Tuple) (c : ℝ) :
    a / c = ⟨a.x / c, a.y / c, a.z / c, a.w / c⟩ := rfl

@[simp] lemma Tuple.mk_x (x y z w : ℝ) : (Tuple.mk x y z w).x = x := rfl

@[simp] lemma Tuple.mk_y (x y z w : ℝ) : (Tuple.mk x y z w).y = y := rfl

@[simp] lemma Tuple.mk_z (x y z w : ℝ) : (Tuple.mk x y z w).z = z := rfl

@[simp] lemma Tuple.mk_w (x y z w : ℝ) : (Tuple.mk x y z w).w = w := rfl

@[simp] lemma Color.add_eval (a b : Color) :
    a + b = ⟨a.r + b.r, a.g + b.g, a.b + b.b⟩ := rfl

@[simp] lemma Color.mul_def (a b : Color) :
    a * b = ⟨a.r * b.r, a.g * b.g, a.b * b.b⟩ := rfl

@[simp] lemma Color.smul_eval (a : Color) (c : ℝ) :
    a * c = ⟨a.r * c, a.g * c, a.b * c⟩ := rfl

@[simp] lemma tget_zero (t : Tuple) : tget t 0 = t.x := rfl

@[simp] lemma tget_one (t : Tuple) : tget t 1 = t.y := rfl

@[simp] lemma tget_two (t : Tuple) : tget t 2 = t.z := rfl

@[simp] lemma tget_three (t : Tuple) : tget t 3 = t.w := rfl

/-- evaluate a square root from an exact square. -/
lemma sqrt_eval {a b : ℝ} (hb : 0 ≤ b) (h : b * b = a) : Real.sqrt a = b := by
  rw [← h]; exact Real.sqrt_mul_self hb

/-- the identity matrix acts as identity on tuples. -/
lemma mulT_eye (t : Tuple) : mulT (eye 4) t = t := by
  cases t with
  | mk x y z w =>
    simp [mulT, eye, Fin.sum_univ_four]

/-- transposing the identity gives the identity. -/
lemma transpose_eye : transpose (eye 4) = eye 4 := by
  funext i j
  simp [transpose, eye, eq_comm]

/-- right identity for the matrix product. -/
lemma mulMat_eye {n : ℕ} (m : SqMatrix n) : mulMat m (eye n) = m := by
  funext i j
  simp [mulMat, eye, mul_ite, Finset.sum_ite_eq]

lemma det_two (m : SqMatrix 2) : det 2 m = m 0 0 * m 1 1 - m 0 1 * m 1 0 := rfl

lemma det_three (m : SqMatrix 3) : det 3 m = ∑ col : Fin 3, cofactor 3 m 0 col * m 0 col := rfl

lemma det_four (m : SqMatrix 4) : det 4 m = ∑ col : Fin 4, cofactor 4 m 0 col * m 0 col := rfl

lemma cof3_00 (m : SqMatrix 3) : cofactor 3 m 0 0 = (m 1 1 * m 2 2 - m 1 2 * m 2 1) * 1 := rfl

lemma cof3_01 (m : SqMatrix 3) : cofactor 3 m 0 1 = (m 1 0 * m 2 2 - m 1 2 * m 2 0) * (0 - 1) := rfl

lemma cof3_02 (m : SqMatrix 3) : cofactor 3 m 0 2 = (m 1 0 * m 2 1 - m 1 1 * m 2 0) * 1 := rfl

/-- cofactor expansion of a 3×3 determinant in closed form. -/
lemma det_three_explicit (m : SqMatrix 3) :
    det 3 m = m 0 0 * (m 1 1 * m 2 2 - m 1 2 * m 2 1)
      - m 0 1 * (m 1 0 * m 2 2 - m 1 2 * m 2 0)
      + m 0 2 * (m 1 0 * m 2 1 - m 1 1 * m 2 0) := by
  rw [det_three, Fin.sum_univ_three, cof3_00, cof3_01, cof3_02]; ring

lemma cof4_def (m : SqMatrix 4) (r c : Fin 4) :
    cofactor 4 m r c
      = det 3 (submatrix m r c) * (if (r.val + c.val) % 2 = 0 then 1 else 0 - 1) := rfl

@[simp] lemma submatrix_apply {n : ℕ} (m : SqMatrix (n + 1)) (r c : Fin (n + 1)) (i j : Fin n) :
    submatrix m r c i j = m (r.succAbove i) (c.succAbove j) := rfl

@[simp] lemma sa4_00 : (0 : Fin 4).succAbove 0 = 1 := rfl
@[simp] lemma sa4_01 : (0 : Fin 4).succAbove 1 = 2 := rfl
@[simp] lemma sa4_02 : (0 : Fin 4).succAbove 2 = 3 := rfl
@[simp] lemma sa4_10 : (1 : Fin 4).succAbove 0 = 0 := rfl
@[simp] lemma sa4_11 : (1 : Fin 4).succAbove 1 = 2 := rfl
@[simp] lemma sa4_12 : (1 : Fin 4).succAbove 2 = 3 := rfl
@[simp] lemma sa4_20 : (2 : Fin 4).succAbove 0 = 0 := rfl
@[simp] lemma sa4_21 : (2 : Fin 4).succAbove 1 = 1 := rfl
@[simp] lemma sa4_22 : (2 : Fin 4).succAbove 2 = 3 := rfl
@[simp] lemma sa4_30 : (3 : Fin 4).succAbove 0 = 0 := rfl
@[simp] lemma sa4_31 : (3 : Fin 4).succAbove 1 = 1 := rfl
@[simp] lemma sa4_32 : (3 : Fin 4).succAbove 2 = 2 := rfl

@[simp] lemma fin4_mk0 (h : (0 : ℕ) < 4) : (⟨0, h⟩ : Fin 4) = 0 := rfl
@[simp] lemma fin4_mk1 (h : (1 : ℕ) < 4) : (⟨1, h⟩ : Fin 4) = 1 := rfl
@[simp] lemma fin4_mk2 (h : (2 : ℕ) < 4) : (⟨2, h⟩ : Fin 4) = 2 := rfl
@[simp] lemma fin4_mk3 (h : (3 : ℕ) < 4) : (⟨3, h⟩ : Fin 4) = 3 := rfl

@[simp] lemma fs3_0 : Fin.succ (0 : Fin 3) = 1 := rfl
@[simp] lemma fs3_1 : Fin.succ (1 : Fin 3) = 2 := rfl
@[simp] lemma fs3_2 : Fin.succ (2 : Fin 3) = 3 := rfl
@[simp] lemma fs2_0 : Fin.succ (0 : Fin 2) = 1 := rfl
@[simp] lemma fs2_1 : Fin.succ (1 : Fin 2) = 2 := rfl
@[simp] lemma fcs3_0 : Fin.castSucc (0 : Fin 3) = 0 := rfl
@[simp] lemma fcs3_1 : Fin.castSucc (1 : Fin 3) = 1 := rfl
@[simp] lemma fcs3_2 : Fin.castSucc (2 : Fin 3) = 2 := rfl

lemma det_scale_half : det 4 (scale 0.5 0.5 0.5) = 1 / 8 := by
  rw [det_four, Fin.sum_univ_four]
  rw [cof4_def, cof4_def, cof4_def, cof4_def]
  simp [det_three_explicit, scale]; norm_num

lemma new_fn_option_all_some {n : ℕ} (g : Fin n → Fin n → ℝ) :
    new_fn_option (fun i j => some (g i j)) = some g := by
  rw [new_fn_option, dif_pos] <;> simp

/-- the inverse of `scale(0.5,0.5,0.5)` computed by the cofactor formula is
`scale(2,2,2)`. -/
lemma inverse_scale_half : inverse (scale 0.5 0.5 0.5) = some (scale 2 2 2) := by
  have hlt : ¬ |det 4 (scale 0.5 0.5 0.5)| < f32Epsilon := by
    rw [det_scale_half, show |((1 : ℝ) / 8)| = 1 / 8 from abs_of_pos (by norm_num)]
    norm_num [f32Epsilon]
  have hfun : (fun i j : Fin 4 =>
      if |det 4 (scale 0.5 0.5 0.5)| < f32Epsilon then none
      else some (cofactor 4 (scale 0.5 0.5 0.5) j i / det 4 (scale 0.5 0.5 0.5))) =
      fun i j : Fin 4 => some (cofactor 4 (scale 0.5 0.5 0.5) j i / det 4 (scale 0.5 0.5 0.5)) := by
    funext i j; rw [if_neg hlt]
  rw [inverse, hfun, new_fn_option_all_some]
  congr 1
  funext i j
  rw [det_scale_half]
  fin_cases i <;> fin_cases j <;>
    (rw [cof4_def]; simp [det_three_explicit, scale]) <;> norm_num

/-- the second default sphere therefore stores `scale(2,2,2)`. -/
lemma defaultSphere2_inv : defaultSphere2.inv_transform = scale 2 2 2 := by
  rw [defaultSphere2]
  simp [inverse_scale_half]

/-!  Lemmas about `find_hit` (filter + minimum) and the sorting step. -/

lemma mem_filterNonneg {x : Hitrecord} :
    ∀ {l : List Hitrecord}, x ∈ filterNonneg l ↔ x ∈ l ∧ 0 ≤ x.hit
  | [] => by simp [filterNonneg]
  | y :: t => by
    by_cases hy : 0 ≤ y.hit
    · simp only [filterNonneg, if_pos hy, List.mem_cons, mem_filterNonneg (l := t)]
      constructor
      · rintro (rfl | ⟨hm, hx⟩)
        · exact ⟨Or.inl rfl, hy⟩
        · exact ⟨Or.inr hm, hx⟩
      · rintro ⟨rfl | hm, hx⟩
        · exact Or.inl rfl
        · exact Or.inr ⟨hm, hx⟩
    · simp only [filterNonneg, if_neg hy, List.mem_cons, mem_filterNonneg (l := t)]
      constructor
      · rintro ⟨hm, hx⟩; exact ⟨Or.inr hm, hx⟩
      · rintro ⟨rfl | hm, hx⟩
        · exact absurd hx hy
        · exact ⟨hm, hx⟩

lemma minByHit_eq_none : ∀ {l : List Hitrecord}, minByHit l = none ↔ l = []
  | [] => by simp [minByHit]
  | h :: t => by
    simp only [minByHit]
    cases ht : minByHit t with
    | none => simp
    | some m => by_cases hc : h.hit ≤ m.hit <;> simp [hc]

lemma minByHit_mem : ∀ {l : List Hitrecord} {h : Hitrecord}, minByHit l = some h → h ∈ l
  | [], h => by simp [minByHit]
  | y :: t, h => by
    simp only [minByHit]
    cases ht : minByHit t with
    | none => rintro ⟨rfl⟩; exact List.mem_cons_self _ _
    | some m =>
      by_cases hc : y.hit ≤ m.hit <;> simp only [hc, if_pos, if_neg, not_false_iff]
      · rintro ⟨rfl⟩; exact List.mem_cons_self _ _
      · rintro ⟨rfl⟩; exact List.mem_cons_of_mem _ (minByHit_mem ht)

lemma minByHit_le : ∀ {l : List Hitrecord} {h : Hitrecord}, minByHit l = some h →
    ∀ x ∈ l, h.hit ≤ x.hit
  | [], h => by simp [minByHit]
  | y :: t, h => by
    simp only [minByHit]
    cases ht : minByHit t with
    | none =>
      rintro ⟨rfl⟩ x hx
      rcases List.mem_cons.mp hx with rfl | hx
      · exact le_refl _
      · exact absurd (minByHit_eq_none.mp ht ▸ hx) (List.not_mem_nil x)
    | some m =>
      by_cases hc : y.hit ≤ m.hit <;> simp only [hc, if_pos, if_neg, not_false_iff]
      · rintro ⟨rfl⟩ x hx
        rcases List.mem_cons.mp hx with rfl | hx
        · exact le_refl _
        · exact le_trans hc (minByHit_le ht x hx)
      · rintro ⟨rfl⟩ x hx
        rcases List.mem_cons.mp hx with rfl | hx
        · exact le_of_lt (lt_of_not_le hc)
        · exact minByHit_le ht x hx

lemma find_hit_eq_none {l : List Hitrecord} :
    find_hit l = none ↔ ∀ x ∈ l, x.hit < 0 := by
  rw [find_hit, minByHit_eq_none, List.eq_nil_iff_forall_not_mem]
  constructor
  · intro H x hx
    by_contra hge
    exact H x (mem_filterNonneg.mpr ⟨hx, le_of_not_lt hge⟩)
  · intro H x hx
    rcases mem_filterNonneg.mp hx with ⟨hm, hge⟩
    exact absurd hge (not_le_of_lt (H x hm))

lemma find_hit_spec {l : List Hitrecord} {h : Hitrecord} (hf : find_hit l = some h) :
    h ∈ l ∧ 0 ≤ h.hit ∧ ∀ x ∈ l, 0 ≤ x.hit → h.hit ≤ x.hit := by
  rw [find_hit] at hf
  rcases mem_filterNonneg.mp (minByHit_mem hf) with ⟨hm, hge⟩
  exact ⟨hm, hge, fun x hx hxge => minByHit_le hf x (mem_filterNonneg.mpr ⟨hx, hxge⟩)⟩

lemma find_hit_isSome {l : List Hitrecord} {x : Hitrecord} (hx : x ∈ l) (hge : 0 ≤ x.hit) :
    ∃ h, find_hit l = some h := by
  cases hf : find_hit l with
  | none => exact absurd hge (not_le_of_lt (find_hit_eq_none.mp hf x hx))
  | some h => exact ⟨h, rfl⟩

lemma mem_insertHit {x y : Hitrecord} :
    ∀ {l : List Hitrecord}, x ∈ insertHit y l ↔ x = y ∨ x ∈ l
  | [] => by simp [insertHit]
  | z :: t => by
    by_cases hc : y.hit ≤ z.hit
    · simp [insertHit, if_pos hc]
    · simp only [insertHit, if_neg hc, List.mem_cons, mem_insertHit (l := t)]
      tauto

lemma mem_sortByHit {x : Hitrecord} :
    ∀ {l : List Hitrecord}, x ∈ sortByHit l ↔ x ∈ l
  | [] => by simp [sortByHit]
  | y :: t => by
    have ht : x ∈ sortByHit t ↔ x ∈ t := mem_sortByHit (l := t)
    simp only [sortByHit, List.foldr_cons] at *
    rw [mem_insertHit, ht, List.mem_cons]

lemma sortByHit_eq_nil : ∀ {l : List Hitrecord}, sortByHit l = [] ↔ l = []
  | [] => by simp [sortByHit]
  | y :: t => by
    simp only [sortByHit, List.foldr_cons]
    constructor
    · intro H
      have : y ∈ insertHit y (List.foldr insertHit [] t) := mem_insertHit.mpr (Or.inl rfl)
      rw [H] at this
      exact absurd this (List.not_mem_nil y)
    · intro H; exact absurd H (List.cons_ne_nil y t)

lemma sortByHit_head_le : ∀ {l : List Hitrecord} {h : Hitrecord} {t : List Hitrecord},
    sortByHit l = h :: t → h ∈ l ∧ ∀ x ∈ l, h.hit ≤ x.hit
  | [], h, t => by simp [sortByHit]
  | y :: l, h, t => by
    intro H
    simp only [sortByHit, List.foldr_cons] at H
    cases hs : sortByHit l with
    | nil =>
      have hl : l = [] := sortByHit_eq_nil.mp hs
      subst hl
      simp only [sortByHit, List.foldr_nil] at H
      simp only [insertHit] at H
      cases H
      constructor
      · exact List.mem_cons_self _ _
      · intro x hx
        rcases List.mem_cons.mp hx with rfl | hx
        · exact le_refl _
        · exact absurd hx (List.not_mem_nil x)
    | cons b t2 =>
      have hb := sortByHit_head_le (l := l) hs
      rw [show List.foldr insertHit [] l = sortByHit l from rfl, hs] at H
      simp only [insertHit] at H
      by_cases hc : y.hit ≤ b.hit
      · rw [if_pos hc] at H
        cases H
        constructor
        · exact List.mem_cons_self _ _
        · intro x hx
          rcases List.mem_cons.mp hx with rfl | hx
          · exact le_refl _
          · exact le_trans (le_trans hc (le_refl _)) (hb.2 x hx)
      · rw [if_neg hc] at H
        cases H
        constructor
        · exact List.mem_cons_of_mem _ hb.1
        · intro x hx
          rcases List.mem_cons.mp hx with rfl | hx
          · exact le_of_lt (lt_of_not_le hc)
          · exact hb.2 x hx

/-- `is_shadowed` holds exactly when some forward hit lies strictly closer
than the light. -/
lemma is_shadowed_iff (w : World) (p : Tuple) (light : PointLight) :
    w.is_shadowed p light = true ↔
      ∃ h ∈ w.intersect_world (Ray.new p ((light.pos - p).normalize)),
        0 ≤ h.hit ∧ h.hit < (light.pos - p).magnitude := by
  simp only [World.is_shadowed]
  cases hf : find_hit (w.intersect_world (Ray.new p ((light.pos - p).normalize))) with
  | none =>
    simp only [hf]
    constructor
    · intro h; cases h
    · rintro ⟨h, hm, hge, _⟩
      exact absurd hge (not_le_of_lt (find_hit_eq_none.mp hf h hm))
  | some h =>
    simp only [hf, decide_eq_true_eq]
    constructor
    · intro hlt
      rcases find_hit_spec hf with ⟨hm, hge, _⟩
      exact ⟨h, hm, hge, hlt⟩
    · rintro ⟨x, hxm, hxge, hxlt⟩
      rcases find_hit_spec hf with ⟨hm, hge, hmin⟩
      exact lt_of_le_of_lt (hmin x hxm hxge) hxlt

/-!  Concrete evaluation helpers. -/

lemma magnitude_eval {x y z w m : ℝ} (hm : 0 ≤ m) (h : m * m = x * x + y * y + z * z) :
    (Tuple.mk x y z w).magnitude = m := by
  rw [show (Tuple.mk x y z w).magnitude = Real.sqrt (x * x + y * y + z * z) from rfl]
  exact sqrt_eval hm h

lemma normalize_eval {x y z w m : ℝ} (hm : 0 ≤ m) (h : m * m = x * x + y * y + z * z) :
    (Tuple.mk x y z w).normalize = ⟨x / m, y / m, z / m, w / m⟩ := by
  rw [Tuple.normalize, magnitude_eval hm h]; rfl

lemma transform_eye (r : Ray) : r.transform (eye 4) = r := by
  cases r with
  | mk o d => rw [Ray.transform, mulT_eye, mulT_eye]

lemma exRayA_eval : exRayA = ⟨Tuple.new_point 0 0 (-5), Tuple.new_vector 0 0 1⟩ := by
  rw [exRayA, Ray.new, Tuple.new_vector, Tuple.new_point,
    normalize_eval (m := 1) (by norm_num) (by norm_num)]
  norm_num

lemma exRayB_eval : exRayB = ⟨Tuple.new_point 0 0 0, Tuple.new_vector 0 0 1⟩ := by
  rw [exRayB, Ray.new, Tuple.new_vector, Tuple.new_point,
    normalize_eval (m := 1) (by norm_num) (by norm_num)]
  norm_num

lemma exRayC_eval : exRayC = ⟨Tuple.new_point 0 0 5, Tuple.new_vector 0 0 1⟩ := by
  rw [exRayC, Ray.new, Tuple.new_vector, Tuple.new_point,
    normalize_eval (m := 1) (by norm_num) (by norm_num)]
  norm_num

lemma sqrt_four : Real.sqrt 4 = 2 := sqrt_eval (by norm_num) (by norm_num)

lemma sphereHit_rayA : Sphere.hit ⟨Tuple.new_point 0 0 (-5), Tuple.new_vector 0 0 1⟩ = [4, 6] := by
  norm_num [Sphere.hit, dot, Tuple.new_point, Tuple.new_vector, sqrt_four]

lemma sphereHit_rayB : Sphere.hit ⟨Tuple.new_point 0 0 0, Tuple.new_vector 0 0 1⟩ = [-1, 1] := by
  norm_num [Sphere.hit, dot, Tuple.new_point, Tuple.new_vector, sqrt_four]

lemma sphereHit_rayC : Sphere.hit ⟨Tuple.new_point 0 0 5, Tuple.new_vector 0 0 1⟩ = [-6, -4] := by
  norm_num [Sphere.hit, dot, Tuple.new_point, Tuple.new_vector, sqrt_four]

lemma objHit_exRayA : Object.hit exSphere exRayA = [⟨4, exSphere⟩, ⟨6, exSphere⟩] := by
  rw [Object.hit, show exSphere.inv_transform = eye 4 from rfl, transform_eye, exRayA_eval,
    show exSphere.shape = Shape.sphere from rfl, Shape.hit, sphereHit_rayA]
  rfl

lemma objHit_exRayB : Object.hit exSphere exRayB = [⟨-1, exSphere⟩, ⟨1, exSphere⟩] := by
  rw [Object.hit, show exSphere.inv_transform = eye 4 from rfl, transform_eye, exRayB_eval,
    show exSphere.shape = Shape.sphere from rfl, Shape.hit, sphereHit_rayB]
  rfl

lemma objHit_exRayC : Object.hit exSphere exRayC = [⟨-6, exSphere⟩, ⟨-4, exSphere⟩] := by
  rw [Object.hit, show exSphere.inv_transform = eye 4 from rfl, transform_eye, exRayC_eval,
    show exSphere.shape = Shape.sphere from rfl, Shape.hit, sphereHit_rayC]
  rfl

/-- C3: Sphere intersection solves `a·t²+b·t+c = 0` with `a = dot(dir,dir)`,
`b = 2·dot(dir, origin−center)`, `c = dot(origin−center,origin−center)−1`;
a negative discriminant yields the empty list, otherwise exactly the two
roots with the `−√disc` root first (the smaller root first when `a > 0`);
and against the untransformed unit sphere the rays from (0,0,−5), (0,0,0)
and (0,0,5) with direction (0,0,1) give parameters [4,6], [−1,1] and
[−6,−4] respectively, `find_hit` reporting no hit on the last. -/
theorem C3_sphere_quadratic :
    (∀ r : Ray,
      let sphere_to_ray := r.origin - Tuple.new_point 0 0 0
      let a := dot r.dir r.dir
      let b := 2 * dot r.dir sphere_to_ray
      let c := dot sphere_to_ray sphere_to_ray - 1
      let disc := b * b - 4 * a * c
      (disc < 0 → Sphere.hit r = []) ∧
        (0 ≤ disc →
          Sphere.hit r = [(-b - Real.sqrt disc) / (2 * a), (-b + Real.sqrt disc) / (2 * a)] ∧
            (0 < a → (-b - Real.sqrt disc) / (2 * a) ≤ (-b + Real.sqrt disc) / (2 * a)))) ∧
    (Object.hit exSphere exRayA).map Hitrecord.hit = [4, 6] ∧
    (Object.hit exSphere exRayB).map Hitrecord.hit = [-1, 1] ∧
    (Object.hit exSphere exRayC).map Hitrecord.hit = [-6, -4] ∧
    find_hit (Object.hit exSphere exRayC) = none := by
  refine ⟨?_, ?_, ?_, ?_, ?_⟩
  · intro r
    refine ⟨fun hd => if_pos hd, fun hd => ⟨if_neg (not_lt.mpr hd), fun ha => ?_⟩⟩
    have hs : 0 ≤ Real.sqrt (2 * dot r.dir (r.origin - Tuple.new_point 0 0 0) *
        (2 * dot r.dir (r.origin - Tuple.new_point 0 0 0)) -
        4 * dot r.dir r.dir *
          (dot (r.origin - Tuple.new_point 0 0 0) (r.origin - Tuple.new_point 0 0 0) - 1)) :=
      Real.sqrt_nonneg _
    have h2a : (0 : ℝ) < 2 * dot r.dir r.dir := by linarith
    exact (div_le_div_iff_of_pos_right h2a).mpr (by linarith)
  · rw [objHit_exRayA]; rfl
  · rw [objHit_exRayB]; rfl
  · rw [objHit_exRayC]; rfl
  · rw [objHit_exRayC]; norm_num [find_hit, filterNonneg, minByHit]

/-- witness for C3: a missing ray (origin (0,2,−5), discriminant −12) takes
the empty branch, and the ray from (0,0,−5) takes the two-root branch. -/
theorem C3_witness :
    Sphere.hit ⟨Tuple.new_point 0 2 (-5), Tuple.new_vector 0 0 1⟩ = [] ∧
    Sphere.hit ⟨Tuple.new_point 0 0 (-5), Tuple.new_vector 0 0 1⟩
      = [(10 - Real.sqrt 4) / 2, (10 + Real.sqrt 4) / 2] := by
  constructor
  · exact (C3_sphere_quadratic.1 _).1 (by norm_num [dot, Tuple.new_point, Tuple.new_vector])
  · have h := ((C3_sphere_quadratic.1 ⟨Tuple.new_point 0 0 (-5), Tuple.new_vector 0 0 1⟩).2
      (by norm_num [dot, Tuple.new_point, Tuple.new_vector])).1
    rw [h]; norm_num [dot, Tuple.new_point, Tuple.new_vector]

/-- C6: the transform builder starts at the 4×4 identity and each
translate/scale/rotation call left-multiplies its elementary matrix onto
the accumulated matrix; in particular
`identity().translate(x,y,z).rotation_x(θ).build()` equals
`rotation_x(θ) * translate(x,y,z)`. -/
theorem C6_transform_builder :
    (TransformBuilder.identity.build = eye 4) ∧
    (∀ (b : TransformBuilder) (x y z : ℝ),
      (b.translate x y z).build = mulMat (translate x y z) b.build) ∧
    (∀ (b : TransformBuilder) (x y z : ℝ),
      (b.scale x y z).build = mulMat (scale x y z) b.build) ∧
    (∀ (b : TransformBuilder) (r : ℝ),
      (b.rotation_x r).build = mulMat (rotation_x r) b.build) ∧
    (∀ x y z θ : ℝ,
      ((TransformBuilder.identity.translate x y z).rotation_x θ).build
        = mulMat (rotation_x θ) (translate x y z)) := by
  refine ⟨rfl, fun b x y z => rfl, fun b x y z => rfl, fun b r => rfl, fun x y z θ => ?_⟩
  show mulMat (rotation_x θ) (mulMat (translate x y z) (eye 4)) = _
  rw [mulMat_eye]

/-- C7: `inverse` fails exactly when `|det| < epsilon` and otherwise returns
the transposed-cofactor matrix divided by the determinant; and
`apply_transform` fails (the Rust `unwrap` panic) exactly when the inverse
fails, never substituting another transform. -/
theorem C7_inverse_spec :
    (∀ (n : ℕ) (m : SqMatrix n), 0 < n →
      ((inverse m = none ↔ |det n m| < f32Epsilon) ∧
        (¬ |det n m| < f32Epsilon →
          inverse m = some fun i j => cofactor n m j i / det n m))) ∧
    (∀ (o : Object) (t : SqMatrix 4),
      Object.apply_transform o t = none ↔ inverse t = none) := by
  constructor
  · intro n m hn
    by_cases hlt : |det n m| < f32Epsilon
    · have hfun : (fun i j : Fin n =>
          if |det n m| < f32Epsilon then none
          else some (cofactor n m j i / det n m)) = fun _ _ => (none : Option ℝ) := by
        funext i j; rw [if_pos hlt]
      have hnone : inverse m = none := by
        rw [inverse, hfun, new_fn_option, dif_neg]
        intro H
        exact Bool.noConfusion (H ⟨0, hn⟩ ⟨0, hn⟩)
      exact ⟨by rw [hnone]; exact iff_of_true rfl hlt, fun h => absurd hlt h⟩
    · have hfun : (fun i j : Fin n =>
          if |det n m| < f32Epsilon then none
          else some (cofactor n m j i / det n m)) =
          fun i j => some (cofactor n m j i / det n m) := by
        funext i j; rw [if_neg hlt]
      have hsome : inverse m = some fun i j => cofactor n m j i / det n m := by
        rw [inverse, hfun, new_fn_option_all_some]
      refine ⟨?_, fun _ => hsome⟩
      rw [hsome]
      simp only [reduceCtorEq, false_iff]
      exact hlt
  · intro o t
    rw [Object.apply_transform, Option.map_eq_none']

/-- witness for C7: the 2×2 identity has determinant 1, so its inverse
succeeds and equals its cofactor formula. -/
theorem C7_witness :
    (inverse (eye 2) = none ↔ |det 2 (eye 2)| < f32Epsilon) ∧
    inverse (eye 2) = some fun i j => cofactor 2 (eye 2) j i / det 2 (eye 2) := by
  have h := C7_inverse_spec.1 2 (eye 2) (by norm_num)
  refine ⟨h.1, h.2 ?_⟩
  rw [det_two]
  simp [eye, f32Epsilon]
  norm_num

/-- C8: `Ray::new` stores the normalized direction (unit length whenever the
given vector has nonzero magnitude), and `Ray::transform` applies the matrix
to origin and direction with no renormalization. -/
theorem C8_ray_spec :
    (∀ o d : Tuple, Ray.new o d = ⟨o, d.normalize⟩) ∧
    (∀ o d : Tuple, d.w = 0 → d.magnitude ≠ 0 → (Ray.new o d).dir.magnitude = 1) ∧
    (∀ (r : Ray) (m : SqMatrix 4),
      r.transform m = ⟨mulT m r.origin, mulT m r.dir⟩) := by
  refine ⟨fun o d => rfl, ?_, fun r m => rfl⟩
  intro o d _ hm
  have hs : 0 ≤ d.x * d.x + d.y * d.y + d.z * d.z :=
    add_nonneg (add_nonneg (mul_self_nonneg _) (mul_self_nonneg _)) (mul_self_nonneg _)
  have hg : d.magnitude * d.magnitude = d.x * d.x + d.y * d.y + d.z * d.z :=
    Real.mul_self_sqrt hs
  have hsne : d.x * d.x + d.y * d.y + d.z * d.z ≠ 0 := by
    intro h0
    exact hm (by rw [Tuple.magnitude, h0, Real.sqrt_zero])
  have hcomp : (d.x / d.magnitude) * (d.x / d.magnitude)
      + (d.y / d.magnitude) * (d.y / d.magnitude)
      + (d.z / d.magnitude) * (d.z / d.magnitude)
      = (d.x * d.x + d.y * d.y + d.z * d.z) / (d.magnitude * d.magnitude) := by
    field_simp
  show ((d / d.magnitude : Tuple)).magnitude = 1
  rw [Tuple.magnitude]
  simp only [Tuple.sdiv_def, Tuple.mk_x, Tuple.mk_y, Tuple.mk_z]
  rw [hcomp, hg, div_self hsne, Real.sqrt_one]

/-- witness for C8: the vector (0,0,2) has magnitude 2 ≠ 0, so the stored
direction of `Ray::new` has unit magnitude. -/
theorem C8_witness :
    (Ray.new (Tuple.new_point 0 0 0) (Tuple.new_vector 0 0 2)).dir.magnitude = 1 :=
  C8_ray_spec.2.1 (Tuple.new_point 0 0 0) (Tuple.new_vector 0 0 2) rfl
    (by rw [Tuple.new_vector, magnitude_eval (m := 2) (by norm_num) (by norm_num)]; norm_num)

/-- C9: the camera keeps the narrower dimension's view angle: when
`aspect ≥ 1` the half width is `tan(fov/2)` and the half height is that over
the aspect, otherwise the reverse (the horizontal side scaled down by the
aspect), and the pixel size is `2·half_width / hsize`. -/
theorem C9_camera_new :
    ∀ hsize vsize fov : ℝ,
      (Camera.new hsize vsize fov).half_width =
        (if 1 ≤ hsize / vsize then Real.tan (fov / 2)
         else Real.tan (fov / 2) * (hsize / vsize)) ∧
      (Camera.new hsize vsize fov).half_height =
        (if 1 ≤ hsize / vsize then Real.tan (fov / 2) / (hsize / vsize)
         else Real.tan (fov / 2)) ∧
      (Camera.new hsize vsize fov).pixel_size =
        2 * (Camera.new hsize vsize fov).half_width / hsize := by
  intro h v f
  by_cases hc : 1 ≤ h / v <;> simp [Camera.new, hc] <;> ring

/-- C10: a matrix with bottom row (0,0,0,1) preserves the `w` component of
every tuple, hence transforms a point/vector ray into a point/vector ray,
under which all `dot` preconditions of `Sphere::hit` hold. -/
theorem C10_w_preserved :
    ∀ (m : SqMatrix 4) (t : Tuple) (r : Ray),
      m 3 0 = 0 → m 3 1 = 0 → m 3 2 = 0 → m 3 3 = 1 →
      ((mulT m t).w = t.w ∧
        (r.origin.w = 1 → r.dir.w = 0 →
          (r.transform m).origin.w = 1 ∧ (r.transform m).dir.w = 0 ∧
            Sphere.hitOk (r.transform m))) := by
  intro m t r h0 h1 h2 h3
  have key : ∀ u : Tuple, (mulT m u).w = u.w := by
    intro u
    show (∑ j, m 3 j * tget u j) = u.w
    rw [Fin.sum_univ_four, h0, h1, h2, h3, tget_zero, tget_one, tget_two, tget_three]
    ring
  refine ⟨key t, fun ho hd => ?_⟩
  have ho' : (r.transform m).origin.w = 1 := by
    rw [show (r.transform m).origin = mulT m r.origin from rfl, key, ho]
  have hd' : (r.transform m).dir.w = 0 := by
    rw [show (r.transform m).dir = mulT m r.dir from rfl, key, hd]
  have hsub : ((r.transform m).origin - Tuple.new_point 0 0 0).w = 0 := by
    rw [Tuple.sub_def, Tuple.mk_w, ho']
    norm_num [Tuple.new_point]
  exact ⟨ho', hd', ⟨hd', hd'⟩, ⟨hd', hsub⟩, ⟨hsub, hsub⟩⟩

/-- witness for C10: `translate(1,2,3)` has the standard bottom row and maps
the point–vector ray from (1,2,3) along (0,0,1) to a point–vector ray on
which the `Sphere::hit` dot preconditions hold. -/
theorem C10_witness :
    (mulT (translate 1 2 3) (Tuple.new_point 1 2 3)).w = (Tuple.new_point 1 2 3).w ∧
    ((Ray.mk (Tuple.new_point 1 2 3) (Tuple.new_vector 0 0 1)).origin.w = 1 →
      (Ray.mk (Tuple.new_point 1 2 3) (Tuple.new_vector 0 0 1)).dir.w = 0 →
      ((Ray.mk (Tuple.new_point 1 2 3) (Tuple.new_vector 0 0 1)).transform
          (translate 1 2 3)).origin.w = 1 ∧
        ((Ray.mk (Tuple.new_point 1 2 3) (Tuple.new_vector 0 0 1)).transform
          (translate 1 2 3)).dir.w = 0 ∧
        Sphere.hitOk ((Ray.mk (Tuple.new_point 1 2 3) (Tuple.new_vector 0 0 1)).transform
          (translate 1 2 3))) :=
  C10_w_preserved (translate 1 2 3) (Tuple.new_point 1 2 3)
    (Ray.mk (Tuple.new_point 1 2 3) (Tuple.new_vector 0 0 1)) rfl rfl rfl rfl

/-- the normal of the untransformed unit sphere at the point (0,0,1). -/
lemma normal_exSphere_001 : exSphere.normal_at (Tuple.mk 0 0 1 1) = ⟨0, 0, 1, 0⟩ := by
  have h1 : (Tuple.mk (0 : ℝ) 0 1 1 - Tuple.new_point 0 0 0) = Tuple.mk 0 0 1 0 := by
    rw [Tuple.new_point, Tuple.sub_def]; norm_num
  have h2 : (Tuple.mk (0 : ℝ) 0 1 0).normalize = Tuple.mk 0 0 1 0 := by
    rw [normalize_eval (m := 1) (by norm_num) (by norm_num)]; norm_num
  simp only [Object.normal_at, show exSphere.inv_transform = eye 4 from rfl, transpose_eye,
    show exSphere.shape = Shape.sphere from rfl, Shape.normal_at, Sphere.normal_at, mulT_eye,
    h1, h2, Tuple.mk_x, Tuple.mk_y, Tuple.mk_z]

/-- C2 (amended): `prepare_computations` builds point, eye, inside flag and
the eye-facing normal as claimed, but `over_point` offsets by the normal
BEFORE the inside flip (so for inside hits the offset goes against the
stored normal), with the concrete epsilon 0.01. -/
theorem C2_prepare_computations :
    ∀ (hr : Hitrecord) (ray : Ray),
      (World.prepare_computations hr ray).hit = hr.hit ∧
      (World.prepare_computations hr ray).obj = hr.obj ∧
      (World.prepare_computations hr ray).point = ray.pos hr.hit ∧
      (World.prepare_computations hr ray).eyev = -ray.dir ∧
      ((World.prepare_computations hr ray).inside =
        decide (dot (hr.obj.normal_at (ray.pos hr.hit)) (-ray.dir) < 0)) ∧
      ((World.prepare_computations hr ray).normalv =
        if dot (hr.obj.normal_at (ray.pos hr.hit)) (-ray.dir) < 0
        then -(hr.obj.normal_at (ray.pos hr.hit))
        else hr.obj.normal_at (ray.pos hr.hit)) ∧
      (World.prepare_computations hr ray).over_point =
        ray.pos hr.hit + hr.obj.normal_at (ray.pos hr.hit) * (0.01 : ℝ) := by
  intro hr ray
  refine ⟨rfl, rfl, rfl, rfl, rfl, ?_, rfl⟩
  by_cases h : dot (hr.obj.normal_at (ray.pos hr.hit)) (-ray.dir) < 0 <;>
    simp [World.prepare_computations, h]

/-- counterexample for C2: for the inside hit at parameter 1 of the ray from
the origin, the claimed identity `over_point = point + (flipped) normal·ε`
fails: the code gives (0,0,1.01) while the claim demands (0,0,0.99). -/
theorem C2_counterexample :
    (World.prepare_computations exRecordB exRayB).inside = true ∧
    (World.prepare_computations exRecordB exRayB).over_point ≠
      (World.prepare_computations exRecordB exRayB).point +
        (World.prepare_computations exRecordB exRayB).normalv * (0.01 : ℝ) := by
  have hpt : exRayB.pos 1 = Tuple.mk 0 0 1 1 := by
    rw [exRayB_eval, Ray.pos]
    simp only [Tuple.new_point, Tuple.new_vector, Tuple.smul_def, Tuple.add_def,
      Tuple.mk_x, Tuple.mk_y, Tuple.mk_z, Tuple.mk_w]
    norm_num
  have hobj : exRecordB.obj = exSphere := rfl
  have hhit : exRecordB.hit = 1 := rfl
  have hn : exRecordB.obj.normal_at (exRayB.pos exRecordB.hit) = ⟨0, 0, 1, 0⟩ := by
    rw [hobj, hhit, hpt, normal_exSphere_001]
  have hdot : dot (exRecordB.obj.normal_at (exRayB.pos exRecordB.hit)) (-exRayB.dir) = -1 := by
    rw [hn, exRayB_eval]
    simp only [Tuple.new_vector, Tuple.neg_def, dot, Tuple.mk_x, Tuple.mk_y, Tuple.mk_z,
      Tuple.mk_w]
    norm_num
  constructor
  · show decide (dot (exRecordB.obj.normal_at (exRayB.pos exRecordB.hit)) (-exRayB.dir) < 0)
      = true
    rw [hdot]
    norm_num
  · show exRayB.pos exRecordB.hit
        + exRecordB.obj.normal_at (exRayB.pos exRecordB.hit) * (0.01 : ℝ) ≠ _
    have hin : (World.prepare_computations exRecordB exRayB).inside = true := by
      show decide (dot (exRecordB.obj.normal_at (exRayB.pos exRecordB.hit)) (-exRayB.dir) < 0)
        = true
      rw [hdot]; norm_num
    have hnv : (World.prepare_computations exRecordB exRayB).normalv
        = -(exRecordB.obj.normal_at (exRayB.pos exRecordB.hit)) := by
      show (if decide (dot (exRecordB.obj.normal_at (exRayB.pos exRecordB.hit)) (-exRayB.dir)
          < 0) = true then _ else _) = _
      rw [hdot]
      norm_num
    rw [hnv, hn,
      show (World.prepare_computations exRecordB exRayB).point
        = exRayB.pos exRecordB.hit from rfl, hhit, hpt]
    simp only [Tuple.neg_def, Tuple.smul_def, Tuple.add_def, Tuple.mk_x, Tuple.mk_y,
      Tuple.mk_z, Tuple.mk_w, Tuple.mk.injEq]
    norm_num

/-- the light direction from the origin to a light at (0,0,−10). -/
lemma lightv_eval_neg10 :
    ((Tuple.new_point 0 0 (-10) : Tuple) - Tuple.new_point 0 0 0).normalize
      = Tuple.mk 0 0 (-1) 0 := by
  rw [show ((Tuple.new_point 0 0 (-10) : Tuple) - Tuple.new_point 0 0 0)
      = Tuple.mk 0 0 (-10) 0 by rw [Tuple.new_point, Tuple.new_point, Tuple.sub_def]; norm_num]
  rw [normalize_eval (m := 10) (by norm_num) (by norm_num)]
  norm_num

/-- C4: `lightning` returns the ambient term
`(material.color * light.intensity) * material.ambient` alone when shadowed;
otherwise diffuse and specular are both black when the light is behind the
surface (`light_dot_normal < 0`), the specular term alone is black when the
reflected light points away from the eye, and on the book's concrete inputs
the default material gives (1.9,1.9,1.9) unshadowed and (0.1,0.1,0.1)
shadowed. -/
theorem C4_lightning_spec :
    (∀ (mat : Material) (light : PointLight) (pos eyev normalv : Tuple),
      lightning mat light pos eyev normalv true = mat.color * light.intensity * mat.ambient) ∧
    (∀ (mat : Material) (light : PointLight) (pos eyev normalv : Tuple),
      dot ((light.pos - pos).normalize) normalv < 0 →
        lightning mat light pos eyev normalv false
          = mat.color * light.intensity * mat.ambient + ⟨0, 0, 0⟩ + ⟨0, 0, 0⟩) ∧
    (∀ (mat : Material) (light : PointLight) (pos eyev normalv : Tuple),
      ¬ dot ((light.pos - pos).normalize) normalv < 0 →
        dot ((-((light.pos - pos).normalize)).reflect normalv) eyev < 0 →
        lightning mat light pos eyev normalv false
          = mat.color * light.intensity * mat.ambient
            + mat.color * light.intensity * mat.diffuse
                * dot ((light.pos - pos).normalize) normalv
            + ⟨0, 0, 0⟩) ∧
    (lightning Material.new ⟨⟨1, 1, 1⟩, Tuple.new_point 0 0 (-10)⟩ (Tuple.new_point 0 0 0)
        (Tuple.new_vector 0 0 (-1)) (Tuple.new_vector 0 0 (-1)) false = ⟨1.9, 1.9, 1.9⟩) ∧
    (lightning Material.new ⟨⟨1, 1, 1⟩, Tuple.new_point 0 0 (-10)⟩ (Tuple.new_point 0 0 0)
        (Tuple.new_vector 0 0 (-1)) (Tuple.new_vector 0 0 (-1)) true = ⟨0.1, 0.1, 0.1⟩) := by
  refine ⟨fun mat light pos eyev normalv => rfl, ?_, ?_, ?_, ?_⟩
  · intro mat light pos eyev normalv h
    simp only [lightning, Bool.false_eq_true, if_false, if_pos h]
  · intro mat light pos eyev normalv h1 h2
    simp only [lightning, Bool.false_eq_true, if_false, if_neg h1, if_pos h2]
  · have hl : ((⟨⟨1, 1, 1⟩, Tuple.new_point 0 0 (-10)⟩ : PointLight).pos
        - Tuple.new_point 0 0 0).normalize = Tuple.mk 0 0 (-1) 0 := lightv_eval_neg10
    simp only [lightning, Bool.false_eq_true, if_false, hl]
    rw [show dot (Tuple.mk 0 0 (-1) 0) (Tuple.new_vector 0 0 (-1)) = 1 by
      rw [Tuple.new_vector, dot]; norm_num]
    rw [if_neg (by norm_num)]
    rw [show (-(Tuple.mk (0:ℝ) 0 (-1) 0)).reflect (Tuple.new_vector 0 0 (-1))
        = Tuple.mk 0 0 (-1) 0 by
      rw [Tuple.new_vector, Tuple.reflect]
      simp only [Tuple.neg_def, Tuple.mk_x, Tuple.mk_y, Tuple.mk_z, Tuple.mk_w, dot,
        Tuple.smul_def, Tuple.sub_def]
      norm_num]
    rw [show dot (Tuple.mk 0 0 (-1) 0) (Tuple.new_vector 0 0 (-1)) = 1 by
      rw [Tuple.new_vector, dot]; norm_num]
    rw [if_neg (by norm_num), Real.one_rpow]
    simp only [Material.new, Color.mul_def, Color.smul_eval, Color.add_eval, Color.mk.injEq]
    norm_num
  · have hl : ((⟨⟨1, 1, 1⟩, Tuple.new_point 0 0 (-10)⟩ : PointLight).pos
        - Tuple.new_point 0 0 0).normalize = Tuple.mk 0 0 (-1) 0 := lightv_eval_neg10
    simp only [lightning, if_true, hl, Material.new, Color.mul_def, Color.smul_eval,
      Color.mk.injEq]
    norm_num

/-- witness for C4: with a light at (0,0,−10), the normal (0,0,1) faces away
from the light (so diffuse and specular are black), and with normal (0,0,−1)
but eye (0,0,1) the reflected light points away from the eye (so only the
specular is black). -/
theorem C4_witness :
    lightning Material.new ⟨⟨1, 1, 1⟩, Tuple.new_point 0 0 (-10)⟩ (Tuple.new_point 0 0 0)
        (Tuple.new_vector 0 0 (-1)) (Tuple.new_vector 0 0 1) false
      = Material.new.color * Color.mk 1 1 1 * Material.new.ambient + ⟨0, 0, 0⟩ + ⟨0, 0, 0⟩ ∧
    lightning Material.new ⟨⟨1, 1, 1⟩, Tuple.new_point 0 0 (-10)⟩ (Tuple.new_point 0 0 0)
        (Tuple.new_vector 0 0 1) (Tuple.new_vector 0 0 (-1)) false
      = Material.new.color * Color.mk 1 1 1 * Material.new.ambient
          + Material.new.color * Color.mk 1 1 1 * Material.new.diffuse
            * dot (((⟨⟨1, 1, 1⟩, Tuple.new_point 0 0 (-10)⟩ : PointLight).pos
                - Tuple.new_point 0 0 0).normalize) (Tuple.new_vector 0 0 (-1))
          + ⟨0, 0, 0⟩ := by
  constructor
  · exact C4_lightning_spec.2.1 Material.new ⟨⟨1, 1, 1⟩, Tuple.new_point 0 0 (-10)⟩
      (Tuple.new_point 0 0 0) (Tuple.new_vector 0 0 (-1)) (Tuple.new_vector 0 0 1)
      (by rw [lightv_eval_neg10, dot]; norm_num [Tuple.new_vector])
  · exact C4_lightning_spec.2.2.1 Material.new ⟨⟨1, 1, 1⟩, Tuple.new_point 0 0 (-10)⟩
      (Tuple.new_point 0 0 0) (Tuple.new_vector 0 0 1) (Tuple.new_vector 0 0 (-1))
      (by rw [lightv_eval_neg10, dot]; norm_num [Tuple.new_vector])
      (by
        rw [lightv_eval_neg10, Tuple.reflect]
        simp only [Tuple.new_vector, Tuple.neg_def, Tuple.mk_x, Tuple.mk_y, Tuple.mk_z,
          Tuple.mk_w, dot, Tuple.smul_def, Tuple.sub_def]
        norm_num)

/-- C1 (amended): `color_at` is black exactly when there are no intersection
records at all; otherwise it shades the hit context of the FIRST sorted
record — the record with the smallest parameter, negative parameters
included — not the smallest non-negative one. -/
theorem C1_color_at :
    ∀ (w : World) (ray : Ray),
      (w.intersect_world ray = [] → w.color_at ray = ⟨0, 0, 0⟩) ∧
      (∀ (h : Hitrecord) (t : List Hitrecord), w.intersect_world ray = h :: t →
        w.color_at ray = w.shade_hit (World.prepare_computations h ray) ∧
          ∀ x ∈ w.intersect_world ray, h.hit ≤ x.hit) := by
  intro w ray
  constructor
  · intro he
    simp only [World.color_at, he]
  · intro h t he
    refine ⟨by simp only [World.color_at, he], fun x hx => ?_⟩
    have hb := sortByHit_head_le (show sortByHit ((w.objects.map fun o => o.hit ray).flatten)
      = h :: t from he)
    exact hb.2 x (mem_sortByHit.mp hx)

/-- witness for C1: a world with no objects yields no records, so `color_at`
returns black. -/
theorem C1_witness : World.color_at ⟨[], []⟩ exRayB = ⟨0, 0, 0⟩ :=
  (C1_color_at ⟨[], []⟩ exRayB).1 rfl

/-- the single-sphere world's records on the ray from (0,0,5): both behind
the origin. -/
lemma intersect_exWorld_rayC :
    exWorld.intersect_world exRayC = [⟨-6, exSphere⟩, ⟨-4, exSphere⟩] := by
  rw [World.intersect_world, show exWorld.objects = [exSphere] from rfl]
  simp only [List.map_cons, List.map_nil, List.flatten_cons, List.flatten_nil,
    List.append_nil, objHit_exRayC]
  norm_num [sortByHit, insertHit]

/-- the normal of the untransformed unit sphere at the point (0,0,−1). -/
lemma normal_exSphere_00neg1 : exSphere.normal_at (Tuple.mk 0 0 (-1) 1) = ⟨0, 0, -1, 0⟩ := by
  have h1 : (Tuple.mk (0 : ℝ) 0 (-1) 1 - Tuple.new_point 0 0 0) = Tuple.mk 0 0 (-1) 0 := by
    rw [Tuple.new_point, Tuple.sub_def]; norm_num
  have h2 : (Tuple.mk (0 : ℝ) 0 (-1) 0).normalize = Tuple.mk 0 0 (-1) 0 := by
    rw [normalize_eval (m := 1) (by norm_num) (by norm_num)]; norm_num
  simp only [Object.normal_at, show exSphere.inv_transform = eye 4 from rfl, transpose_eye,
    show exSphere.shape = Shape.sphere from rfl, Shape.normal_at, Sphere.normal_at, mulT_eye,
    h1, h2, Tuple.mk_x, Tuple.mk_y, Tuple.mk_z]

lemma posC_eval : exRayC.pos (-6) = Tuple.mk 0 0 (-1) 1 := by
  rw [exRayC_eval, Ray.pos]
  simp only [Tuple.new_point, Tuple.new_vector, Tuple.smul_def, Tuple.add_def, Tuple.mk_x,
    Tuple.mk_y, Tuple.mk_z, Tuple.mk_w]
  norm_num

lemma over_point_C :
    (World.prepare_computations ⟨-6, exSphere⟩ exRayC).over_point = Tuple.mk 0 0 (-1.01) 1 := by
  show exRayC.pos (-6) + exSphere.normal_at (exRayC.pos (-6)) * (0.01 : ℝ) = _
  rw [posC_eval, normal_exSphere_00neg1]
  simp only [Tuple.smul_def, Tuple.add_def, Tuple.mk_x, Tuple.mk_y, Tuple.mk_z, Tuple.mk_w]
  norm_num

lemma eyev_C : (World.prepare_computations ⟨-6, exSphere⟩ exRayC).eyev = Tuple.mk 0 0 (-1) 0 := by
  show -exRayC.dir = _
  rw [exRayC_eval]
  simp only [Tuple.new_vector, Tuple.neg_def, Tuple.mk_x, Tuple.mk_y, Tuple.mk_z, Tuple.mk_w]
  norm_num

lemma dotC_eval : dot (exSphere.normal_at (exRayC.pos (-6))) (-exRayC.dir) = 1 := by
  rw [posC_eval, normal_exSphere_00neg1, exRayC_eval]
  simp only [Tuple.new_vector, Tuple.neg_def, dot, Tuple.mk_x, Tuple.mk_y, Tuple.mk_z,
    Tuple.mk_w]
  norm_num

lemma normalv_C :
    (World.prepare_computations ⟨-6, exSphere⟩ exRayC).normalv = Tuple.mk 0 0 (-1) 0 := by
  show (if decide (dot (exSphere.normal_at (exRayC.pos (-6))) (-exRayC.dir) < 0) = true
    then -(exSphere.normal_at (exRayC.pos (-6))) else exSphere.normal_at (exRayC.pos (-6))) = _
  rw [dotC_eval, if_neg (by rw [decide_eq_true_eq]; norm_num), posC_eval, normal_exSphere_00neg1]

/-- the shadow ray from the over point of the C ray hits the sphere only at
negative parameters. -/
lemma shadow_sub_C :
    (Tuple.new_point 0 0 (-11) : Tuple) - Tuple.mk 0 0 (-1.01) 1 = Tuple.mk 0 0 (-9.99) 0 := by
  rw [Tuple.new_point, Tuple.sub_def]; norm_num

lemma shadow_dir_C : (Tuple.mk (0 : ℝ) 0 (-9.99) 0).normalize = Tuple.mk 0 0 (-1) 0 := by
  rw [normalize_eval (m := 9.99) (by norm_num) (by norm_num)]; norm_num

lemma shadow_ray_C :
    Ray.new (Tuple.mk 0 0 (-1.01) 1) (Tuple.mk 0 0 (-1) 0)
      = ⟨Tuple.mk 0 0 (-1.01) 1, Tuple.mk 0 0 (-1) 0⟩ := by
  rw [Ray.new, normalize_eval (m := 1) (by norm_num) (by norm_num)]
  norm_num

lemma sphereHit_shadow_C :
    Sphere.hit ⟨Tuple.mk 0 0 (-1.01) 1, Tuple.mk 0 0 (-1) 0⟩ = [-2.01, -0.01] := by
  norm_num [Sphere.hit, dot, Tuple.new_point, sqrt_four]

lemma intersect_shadow_C :
    exWorld.intersect_world ⟨Tuple.mk 0 0 (-1.01) 1, Tuple.mk 0 0 (-1) 0⟩
      = [⟨-2.01, exSphere⟩, ⟨-0.01, exSphere⟩] := by
  rw [World.intersect_world, show exWorld.objects = [exSphere] from rfl]
  simp only [List.map_cons, List.map_nil, List.flatten_cons, List.flatten_nil, List.append_nil]
  rw [Object.hit, show exSphere.inv_transform = eye 4 from rfl, transform_eye,
    show exSphere.shape = Shape.sphere from rfl, Shape.hit, sphereHit_shadow_C]
  norm_num [sortByHit, insertHit]

lemma is_shadowed_C :
    exWorld.is_shadowed (Tuple.mk 0 0 (-1.01) 1) ⟨⟨1, 1, 1⟩, Tuple.new_point 0 0 (-11)⟩
      = false := by
  simp only [World.is_shadowed,
    show (⟨⟨1, 1, 1⟩, Tuple.new_point 0 0 (-11)⟩ : PointLight).pos
      = Tuple.new_point 0 0 (-11) from rfl, shadow_sub_C, shadow_dir_C, shadow_ray_C,
    intersect_shadow_C]
  norm_num [find_hit, filterNonneg, minByHit]

/-- shading the default material at the over point with the light at
(0,0,−11), unshadowed, gives (1.9,1.9,1.9). -/
lemma lightning_C :
    lightning Material.new ⟨⟨1, 1, 1⟩, Tuple.new_point 0 0 (-11)⟩ (Tuple.mk 0 0 (-1.01) 1)
      (Tuple.mk 0 0 (-1) 0) (Tuple.mk 0 0 (-1) 0) false = ⟨1.9, 1.9, 1.9⟩ := by
  simp only [lightning, Bool.false_eq_true, if_false,
    show (⟨⟨1, 1, 1⟩, Tuple.new_point 0 0 (-11)⟩ : PointLight).pos
      = Tuple.new_point 0 0 (-11) from rfl, shadow_sub_C, shadow_dir_C]
  rw [show dot (Tuple.mk 0 0 (-1) 0) (Tuple.mk 0 0 (-1) 0) = 1 by rw [dot]; norm_num]
  rw [if_neg (by norm_num)]
  rw [show (-(Tuple.mk (0 : ℝ) 0 (-1) 0)).reflect (Tuple.mk 0 0 (-1) 0)
      = Tuple.mk 0 0 (-1) 0 by
    rw [Tuple.reflect]
    simp only [Tuple.neg_def, Tuple.mk_x, Tuple.mk_y, Tuple.mk_z, Tuple.mk_w, dot,
      Tuple.smul_def, Tuple.sub_def]
    norm_num]
  rw [show dot (Tuple.mk 0 0 (-1) 0) (Tuple.mk 0 0 (-1) 0) = 1 by rw [dot]; norm_num]
  rw [if_neg (by norm_num), Real.one_rpow]
  simp only [Material.new, Color.mul_def, Color.smul_eval, Color.add_eval, Color.mk.injEq]
  norm_num

lemma shade_hit_C :
    exWorld.shade_hit (World.prepare_computations ⟨-6, exSphere⟩ exRayC) = ⟨1.9, 1.9, 1.9⟩ := by
  rw [World.shade_hit, show exWorld.lights = [⟨⟨1, 1, 1⟩, Tuple.new_point 0 0 (-11)⟩] from rfl]
  simp only [List.map_cons, List.map_nil, List.foldl_cons, List.foldl_nil]
  rw [show (World.prepare_computations ⟨-6, exSphere⟩ exRayC).obj = exSphere from rfl,
    show exSphere.material = Material.new from rfl, over_point_C, eyev_C, normalv_C,
    is_shadowed_C, lightning_C]
  simp only [Color.add_eval, Color.mk.injEq]
  norm_num

/-- counterexample for C1: on the ray from (0,0,5) towards +z, every record
of the single-sphere world has a negative parameter, yet `color_at` returns
(1.9,1.9,1.9), not black — the code shades `hrs[0]` without filtering
negative parameters. -/
theorem C1_counterexample :
    (∀ h ∈ exWorld.intersect_world exRayC, h.hit < 0) ∧
    exWorld.color_at exRayC ≠ ⟨0, 0, 0⟩ := by
  constructor
  · intro h hm
    rw [intersect_exWorld_rayC] at hm
    rcases List.mem_cons.mp hm with rfl | hm
    · norm_num
    · rcases List.mem_cons.mp hm with rfl | hm
      · norm_num
      · exact absurd hm (List.not_mem_nil h)
  · have hc : exWorld.color_at exRayC = ⟨1.9, 1.9, 1.9⟩ := by
      simp only [World.color_at, intersect_exWorld_rayC]
      exact shade_hit_C
    rw [hc]
    simp only [ne_eq, Color.mk.injEq]
    norm_num


lemma mulT_scale (a b c : ℝ) (t : Tuple) :
    mulT (scale a b c) t = ⟨a * t.x, b * t.y, c * t.z, t.w⟩ := by
  cases t with
  | mk x y z w => simp [mulT, scale, Fin.sum_univ_four]

lemma light_sub_p1 :
    defaultLight.pos - Tuple.new_point 0 10 0 = Tuple.mk (-10) 0 (-10) 0 := by
  rw [show defaultLight.pos = Tuple.new_point (-10) 10 (-10) from rfl, Tuple.new_point,
    Tuple.new_point, Tuple.sub_def]
  norm_num

lemma p1_dir :
    (Tuple.mk (-10 : ℝ) 0 (-10) 0).normalize
      = Tuple.mk (-10 / Real.sqrt 200) 0 (-10 / Real.sqrt 200) 0 := by
  have hm2 : Real.sqrt 200 * Real.sqrt 200 = 200 := Real.mul_self_sqrt (by norm_num)
  rw [Tuple.normalize, magnitude_eval (Real.sqrt_nonneg 200) (by rw [hm2]; norm_num)]
  simp [Tuple.sdiv_def]

lemma p1_ray :
    Ray.new (Tuple.new_point 0 10 0)
        (Tuple.mk (-10 / Real.sqrt 200) 0 (-10 / Real.sqrt 200) 0)
      = ⟨Tuple.new_point 0 10 0, Tuple.mk (-10 / Real.sqrt 200) 0 (-10 / Real.sqrt 200) 0⟩ := by
  have hm2 : Real.sqrt 200 * Real.sqrt 200 = 200 := Real.mul_self_sqrt (by norm_num)
  have hm0 : Real.sqrt 200 ≠ 0 := by positivity
  rw [Ray.new, normalize_eval (m := 1) (by norm_num) (by field_simp; linarith [hm2])]
  norm_num

lemma s1_miss :
    Sphere.hit ⟨Tuple.new_point 0 10 0, Tuple.mk (-10 / Real.sqrt 200) 0 (-10 / Real.sqrt 200) 0⟩
      = [] := by
  have hm2 : Real.sqrt 200 * Real.sqrt 200 = 200 := Real.mul_self_sqrt (by norm_num)
  have hm0 : Real.sqrt 200 ≠ 0 := by positivity
  have hstr : (Tuple.new_point 0 10 0 : Tuple) - Tuple.new_point 0 0 0
      = Tuple.mk 0 10 0 0 := by
    rw [Tuple.new_point, Tuple.new_point, Tuple.sub_def]; norm_num
  simp only [Sphere.hit, hstr]
  rw [if_pos]
  rw [show dot (Tuple.mk (-10 / Real.sqrt 200) 0 (-10 / Real.sqrt 200) 0)
      (Tuple.mk 0 10 0 0) = 0 by rw [dot]; simp]
  rw [show dot (Tuple.mk (-10 / Real.sqrt 200) 0 (-10 / Real.sqrt 200) 0)
      (Tuple.mk (-10 / Real.sqrt 200) 0 (-10 / Real.sqrt 200) 0) = 1 by
    rw [dot]; simp only [Tuple.mk_x, Tuple.mk_y, Tuple.mk_z, Tuple.mk_w]
    field_simp
    linarith [hm2]]
  rw [show dot (Tuple.mk (0:ℝ) 10 0 0) (Tuple.mk 0 10 0 0) = 100 by rw [dot]; norm_num]
  norm_num



lemma light_sub_p2 :
    defaultLight.pos - Tuple.new_point 10 (-10) 10 = Tuple.mk (-20) 20 (-20) 0 := by
  rw [show defaultLight.pos = Tuple.new_point (-10) 10 (-10) from rfl, Tuple.new_point,
    Tuple.new_point, Tuple.sub_def]
  norm_num

lemma p2_dist : (Tuple.mk (-20 : ℝ) 20 (-20) 0).magnitude = Real.sqrt 1200 := by
  have hm2 : Real.sqrt 1200 * Real.sqrt 1200 = 1200 := Real.mul_self_sqrt (by norm_num)
  exact magnitude_eval (Real.sqrt_nonneg 1200) (by rw [hm2]; norm_num)

lemma p2_dir :
    (Tuple.mk (-20 : ℝ) 20 (-20) 0).normalize
      = Tuple.mk (-20 / Real.sqrt 1200) (20 / Real.sqrt 1200) (-20 / Real.sqrt 1200) 0 := by
  rw [Tuple.normalize, p2_dist]
  simp [Tuple.sdiv_def]

lemma p2_ray :
    Ray.new (Tuple.new_point 10 (-10) 10)
        (Tuple.mk (-20 / Real.sqrt 1200) (20 / Real.sqrt 1200) (-20 / Real.sqrt 1200) 0)
      = ⟨Tuple.new_point 10 (-10) 10,
          Tuple.mk (-20 / Real.sqrt 1200) (20 / Real.sqrt 1200) (-20 / Real.sqrt 1200) 0⟩ := by
  have hm2 : Real.sqrt 1200 * Real.sqrt 1200 = 1200 := Real.mul_self_sqrt (by norm_num)
  have hm0 : Real.sqrt 1200 ≠ 0 := by positivity
  rw [Ray.new, normalize_eval (m := 1) (by norm_num) (by field_simp; linarith [hm2])]
  norm_num

lemma s1_hit_p2 :
    Sphere.hit ⟨Tuple.new_point 10 (-10) 10,
        Tuple.mk (-20 / Real.sqrt 1200) (20 / Real.sqrt 1200) (-20 / Real.sqrt 1200) 0⟩
      = [Real.sqrt 1200 / 2 - 1, Real.sqrt 1200 / 2 + 1] := by
  have hm2 : Real.sqrt 1200 * Real.sqrt 1200 = 1200 := Real.mul_self_sqrt (by norm_num)
  have hm0 : Real.sqrt 1200 ≠ 0 := by positivity
  have hstr : (Tuple.new_point 10 (-10) 10 : Tuple) - Tuple.new_point 0 0 0
      = Tuple.mk 10 (-10) 10 0 := by
    rw [Tuple.new_point, Tuple.new_point, Tuple.sub_def]; norm_num
  simp only [Sphere.hit, hstr]
  rw [show dot (Tuple.mk (-20 / Real.sqrt 1200) (20 / Real.sqrt 1200) (-20 / Real.sqrt 1200) 0)
      (Tuple.mk (-20 / Real.sqrt 1200) (20 / Real.sqrt 1200) (-20 / Real.sqrt 1200) 0) = 1 by
    rw [dot]; simp only [Tuple.mk_x, Tuple.mk_y, Tuple.mk_z, Tuple.mk_w]
    field_simp
    linarith [hm2]]
  rw [show dot (Tuple.mk (-20 / Real.sqrt 1200) (20 / Real.sqrt 1200) (-20 / Real.sqrt 1200) 0)
      (Tuple.mk 10 (-10) 10 0) = -600 / Real.sqrt 1200 by
    rw [dot]; simp only [Tuple.mk_x, Tuple.mk_y, Tuple.mk_z, Tuple.mk_w]
    field_simp
    linear_combination (-400 * Real.sqrt 1200) * hm2]
  rw [show dot (Tuple.mk (10:ℝ) (-10) 10 0) (Tuple.mk 10 (-10) 10 0) = 300 by
    rw [dot]; norm_num]
  rw [show 2 * (-600 / Real.sqrt 1200) * (2 * (-600 / Real.sqrt 1200)) - 4 * 1 * (300 - 1)
      = 4 by
    rw [show 2 * (-600 / Real.sqrt 1200) * (2 * (-600 / Real.sqrt 1200))
        = 1440000 / (Real.sqrt 1200 * Real.sqrt 1200) by ring, hm2]
    norm_num]
  rw [if_neg (by norm_num), sqrt_four]
  have h1200 : (1200 : ℝ) / Real.sqrt 1200 = Real.sqrt 1200 := by
    field_simp
  simp only [List.cons.injEq, and_true]
  constructor
  · rw [show -(2 * (-600 / Real.sqrt 1200)) - 2 = 1200 / Real.sqrt 1200 - 2 by ring, h1200]
    ring
  · rw [show -(2 * (-600 / Real.sqrt 1200)) + 2 = 1200 / Real.sqrt 1200 + 2 by ring, h1200]
    ring



lemma s2_ray_p1 :
    Ray.transform ⟨Tuple.new_point 0 10 0, Tuple.mk (-10 / Real.sqrt 200) 0 (-10 / Real.sqrt 200) 0⟩
        (scale 2 2 2)
      = ⟨Tuple.mk 0 20 0 1, Tuple.mk (-20 / Real.sqrt 200) 0 (-20 / Real.sqrt 200) 0⟩ := by
  rw [Ray.transform, mulT_scale, mulT_scale]
  simp only [Tuple.new_point, Tuple.mk_x, Tuple.mk_y, Tuple.mk_z, Tuple.mk_w, Ray.mk.injEq,
    Tuple.mk.injEq]
  norm_num
  all_goals ring

lemma s2_miss_p1 :
    Sphere.hit ⟨Tuple.mk 0 20 0 1, Tuple.mk (-20 / Real.sqrt 200) 0 (-20 / Real.sqrt 200) 0⟩
      = [] := by
  have hm2 : Real.sqrt 200 * Real.sqrt 200 = 200 := Real.mul_self_sqrt (by norm_num)
  have hm0 : Real.sqrt 200 ≠ 0 := by positivity
  have hstr : (Tuple.mk (0:ℝ) 20 0 1 : Tuple) - Tuple.new_point 0 0 0
      = Tuple.mk 0 20 0 0 := by
    rw [Tuple.new_point, Tuple.sub_def]; norm_num
  simp only [Sphere.hit, hstr]
  rw [if_pos]
  rw [show dot (Tuple.mk (-20 / Real.sqrt 200) 0 (-20 / Real.sqrt 200) 0)
      (Tuple.mk 0 20 0 0) = 0 by rw [dot]; simp]
  rw [show dot (Tuple.mk (-20 / Real.sqrt 200) 0 (-20 / Real.sqrt 200) 0)
      (Tuple.mk (-20 / Real.sqrt 200) 0 (-20 / Real.sqrt 200) 0) = 4 by
    rw [dot]; simp only [Tuple.mk_x, Tuple.mk_y, Tuple.mk_z, Tuple.mk_w]
    field_simp
    linarith [hm2]]
  rw [show dot (Tuple.mk (0:ℝ) 20 0 0) (Tuple.mk 0 20 0 0) = 400 by rw [dot]; norm_num]
  norm_num

lemma objHit_s1_p1 :
    Object.hit defaultSphere1
        ⟨Tuple.new_point 0 10 0, Tuple.mk (-10 / Real.sqrt 200) 0 (-10 / Real.sqrt 200) 0⟩
      = [] := by
  rw [Object.hit, show defaultSphere1.inv_transform = eye 4 from rfl, transform_eye,
    show defaultSphere1.shape = Shape.sphere from rfl, Shape.hit, s1_miss]
  rfl

lemma objHit_s2_p1 :
    Object.hit defaultSphere2
        ⟨Tuple.new_point 0 10 0, Tuple.mk (-10 / Real.sqrt 200) 0 (-10 / Real.sqrt 200) 0⟩
      = [] := by
  rw [Object.hit, defaultSphere2_inv, s2_ray_p1,
    show defaultSphere2.shape = Shape.sphere from rfl, Shape.hit, s2_miss_p1]
  rfl

lemma intersect_p1 :
    World.new_default.intersect_world
        ⟨Tuple.new_point 0 10 0, Tuple.mk (-10 / Real.sqrt 200) 0 (-10 / Real.sqrt 200) 0⟩
      = [] := by
  rw [World.intersect_world,
    show World.new_default.objects = [defaultSphere1, defaultSphere2] from rfl]
  simp only [List.map_cons, List.map_nil, List.flatten_cons, List.flatten_nil, List.append_nil,
    objHit_s1_p1, objHit_s2_p1]
  rfl

lemma is_shadowed_p1 :
    World.new_default.is_shadowed (Tuple.new_point 0 10 0) defaultLight = false := by
  simp only [World.is_shadowed, light_sub_p1, p1_dir, p1_ray, intersect_p1]
  rfl

lemma objHit_s1_p2 :
    Object.hit defaultSphere1
        ⟨Tuple.new_point 10 (-10) 10,
          Tuple.mk (-20 / Real.sqrt 1200) (20 / Real.sqrt 1200) (-20 / Real.sqrt 1200) 0⟩
      = [⟨Real.sqrt 1200 / 2 - 1, defaultSphere1⟩, ⟨Real.sqrt 1200 / 2 + 1, defaultSphere1⟩] := by
  rw [Object.hit, show defaultSphere1.inv_transform = eye 4 from rfl, transform_eye,
    show defaultSphere1.shape = Shape.sphere from rfl, Shape.hit, s1_hit_p2]
  rfl

lemma is_shadowed_p2 :
    World.new_default.is_shadowed (Tuple.new_point 10 (-10) 10) defaultLight = true := by
  rw [is_shadowed_iff, light_sub_p2, p2_dir, p2_dist, p2_ray]
  have hm2 : Real.sqrt 1200 * Real.sqrt 1200 = 1200 := Real.mul_self_sqrt (by norm_num)
  have hm0 : 0 ≤ Real.sqrt 1200 := Real.sqrt_nonneg 1200
  have h2 : 2 ≤ Real.sqrt 1200 := by nlinarith
  refine ⟨⟨Real.sqrt 1200 / 2 - 1, defaultSphere1⟩, ?_, by linarith, by linarith⟩
  rw [World.intersect_world,
    show World.new_default.objects = [defaultSphere1, defaultSphere2] from rfl]
  simp only [List.map_cons, List.map_nil, List.flatten_cons, List.flatten_nil, List.append_nil]
  rw [mem_sortByHit]
  apply List.mem_append.mpr
  left
  rw [objHit_s1_p2]
  exact List.mem_cons_self _ _



/-- C5: `is_shadowed` casts a ray from the point towards the light and is
true exactly when the nearest non-negative hit (`find_hit`) exists with
parameter strictly below the distance to the light — equivalently when some
record has parameter in `[0, distance)`; in the default two-sphere world the
point (0,10,0) is not shadowed and (10,−10,10) is shadowed. -/
theorem C5_is_shadowed_spec :
    (∀ (w : World) (p : Tuple) (light : PointLight),
      w.is_shadowed p light = true ↔
        ∃ h, find_hit (w.intersect_world (Ray.new p ((light.pos - p).normalize))) = some h ∧
          h.hit < (light.pos - p).magnitude) ∧
    (∀ (w : World) (p : Tuple) (light : PointLight),
      w.is_shadowed p light = true ↔
        ∃ h ∈ w.intersect_world (Ray.new p ((light.pos - p).normalize)),
          0 ≤ h.hit ∧ h.hit < (light.pos - p).magnitude) ∧
    World.new_default.is_shadowed (Tuple.new_point 0 10 0) defaultLight = false ∧
    World.new_default.is_shadowed (Tuple.new_point 10 (-10) 10) defaultLight = true := by
  refine ⟨?_, is_shadowed_iff, is_shadowed_p1, is_shadowed_p2⟩
  intro w p light
  simp only [World.is_shadowed]
  cases hf : find_hit (w.intersect_world (Ray.new p ((light.pos - p).normalize))) with
  | none => simp [hf]
  | some h => simp [hf]


end

end RT
